import Mathlib

/-!
Verification of the nscon multi-controller bridge (Go sources).

The Go sources are shallowly embedded:
* float64 axis arithmetic is modelled over `ℚ` (every constant in the source,
  127.5, 32767.0, 2048.0, 512.0, 0.05, 1.0, is an exact rational and every
  comparison in the source is made with margins far above float64 rounding
  error);
* the `int32` event value is modelled as `ℤ`, with the `uint8(value)`
  truncation written explicitly as `% 256`;
* Go maps keyed by player number are modelled as association lists with
  explicit lookup / insert / delete;
* the external nscon protocol handle is opaque: its `Connect` outcome and the
  `os.Open` outcome of the input device are boolean parameters, and `Close`
  calls are recorded explicitly;
* `time.AfterFunc` pulses are modelled by a list of pending reset deadlines
  together with an explicit clock.
-/

/-! ## Axis normalization (shared clamp / deadzone code, identical in
`multi_controller.go` and the unnamed bluetooth demo source) -/

/-- Clamp step of the axis normalizer: `if v > 1.0 { 1.0 } else if v < -1.0
{ -1.0 }`. -/
def clampUnit (x : ℚ) : ℚ :=
  if x > 1 then 1 else if x < -1 then -1 else x

/-- Deadzone step of the axis normalizer: `if v > -0.05 && v < 0.05 { 0.0 }`. -/
def deadzone (x : ℚ) : ℚ :=
  if -0.05 < x ∧ x < 0.05 then 0 else x

namespace Multi

/-- Range-inference chain of `handleInputEvent` in `multi_controller.go`
(three branches: 8-bit unsigned, 16-bit signed, 8-bit fallback). -/
def normalizeRaw (value : ℤ) : ℚ :=
  if 0 ≤ value ∧ value ≤ 255 then ((value : ℚ) - 127.5) / 127.5
  else if -32768 ≤ value ∧ value ≤ 32767 then (value : ℚ) / 32767
  else ((value : ℚ) - 127.5) / 127.5

/-- Full axis normalization of `multi_controller.go`: infer range, clamp,
apply deadzone. -/
def normalize (value : ℤ) : ℚ :=
  deadzone (clampUnit (normalizeRaw value))

end Multi

namespace Part0

/-- Range-inference chain of `handleInputEvent` in the unnamed bluetooth demo
source (five branches: 8-bit unsigned, 16-bit signed, 12-bit unsigned,
10-bit unsigned, 8-bit fallback). -/
def normalizeRaw (value : ℤ) : ℚ :=
  if 0 ≤ value ∧ value ≤ 255 then ((value : ℚ) - 127.5) / 127.5
  else if -32768 ≤ value ∧ value ≤ 32767 then (value : ℚ) / 32767
  else if 0 ≤ value ∧ value ≤ 4095 then ((value : ℚ) - 2048) / 2048
  else if 0 ≤ value ∧ value ≤ 1023 then ((value : ℚ) - 512) / 512
  else ((value : ℚ) - 127.5) / 127.5

/-- Full axis normalization of the unnamed bluetooth demo source. -/
def normalize (value : ℤ) : ℚ :=
  deadzone (clampUnit (normalizeRaw value))

end Part0

/-! ### Candidate ranges of the heuristic inference, named for the claims -/

/-- The 8-bit unsigned candidate range 0..255. -/
def inR8 (v : ℤ) : Prop := 0 ≤ v ∧ v ≤ 255

/-- The 16-bit signed candidate range -32768..32767. -/
def inR16 (v : ℤ) : Prop := -32768 ≤ v ∧ v ≤ 32767

/-- The 12-bit unsigned candidate range 0..4095. -/
def inR12 (v : ℤ) : Prop := 0 ≤ v ∧ v ≤ 4095

/-- The 10-bit unsigned candidate range 0..1023. -/
def inR10 (v : ℤ) : Prop := 0 ≤ v ∧ v ≤ 1023

instance (v : ℤ) : Decidable (inR8 v) := by unfold inR8; infer_instance
instance (v : ℤ) : Decidable (inR16 v) := by unfold inR16; infer_instance
instance (v : ℤ) : Decidable (inR12 v) := by unfold inR12; infer_instance
instance (v : ℤ) : Decidable (inR10 v) := by unfold inR10; infer_instance

/-! ### Helper lemmas about clamp and deadzone -/

theorem clampUnit_eq_max_min (x : ℚ) : clampUnit x = max (-1) (min 1 x) := by
  unfold clampUnit
  split_ifs with h1 h2
  · rw [min_eq_left (le_of_lt h1), max_eq_right (by norm_num)]
  · rw [min_eq_right (by linarith), max_eq_left (le_of_lt h2)]
  · rw [min_eq_right (by linarith), max_eq_right (by linarith)]

theorem deadzone_eq_abs (x : ℚ) : deadzone x = if |x| < 0.05 then 0 else x := by
  unfold deadzone
  have : |x| < 0.05 ↔ -0.05 < x ∧ x < 0.05 := by
    rw [abs_lt]
  simp only [this]

theorem clampUnit_bounds (x : ℚ) : -1 ≤ clampUnit x ∧ clampUnit x ≤ 1 := by
  unfold clampUnit
  split_ifs <;> constructor <;> linarith

theorem deadzone_bounds {x : ℚ} (h1 : -1 ≤ x) (h2 : x ≤ 1) :
    -1 ≤ deadzone x ∧ deadzone x ≤ 1 := by
  unfold deadzone
  split_ifs <;> constructor <;> linarith

theorem normalize_bounds (v : ℤ) :
    -1 ≤ Multi.normalize v ∧ Multi.normalize v ≤ 1 := by
  unfold Multi.normalize
  exact deadzone_bounds (clampUnit_bounds _).1 (clampUnit_bounds _).2

/-! ## Canonical controller state (the nscon `Controller.Input` structure, as
used by the Go sources: digital fields are Go `uint8`, analog fields are Go
`float64`) -/

/-- One analog stick: axes plus the stick-press digital field. -/
structure StickState where
  x : ℚ := 0
  y : ℚ := 0
  press : ℕ := 0
deriving DecidableEq

/-- The pair of analog sticks. -/
structure Sticks where
  left : StickState := {}
  right : StickState := {}
deriving DecidableEq

/-- The named digital buttons. -/
structure Buttons where
  a : ℕ := 0
  b : ℕ := 0
  x : ℕ := 0
  y : ℕ := 0
  l : ℕ := 0
  r : ℕ := 0
  zl : ℕ := 0
  zr : ℕ := 0
  minus : ℕ := 0
  plus : ℕ := 0
  home : ℕ := 0
deriving DecidableEq

/-- The four independent directional-pad directions. -/
structure Dpad where
  up : ℕ := 0
  down : ℕ := 0
  left : ℕ := 0
  right : ℕ := 0
deriving DecidableEq

/-- The canonical controller state of one session. -/
structure ControllerInput where
  button : Buttons := {}
  stick : Sticks := {}
  dpad : Dpad := {}
deriving DecidableEq

/-- The all-zero state a fresh session starts from. -/
def initInput : ControllerInput := {}

namespace Multi

/-- The `setInput` helper of `multi_controller.go` (level mode): 1 while
pressed, 0 when released. -/
def setInput (pressed : Bool) : ℕ :=
  if pressed then 1 else 0

/-- The `handleInputEvent` state mapping of `multi_controller.go` (the state
mutation only; logging has no state effect; the nested `match` mirrors the
nested Go `switch`). -/
def handleInputEvent (eventType code : ℕ) (value : ℤ) (con : ControllerInput) :
    ControllerInput :=
  match eventType with
  | 1 =>
    let pressed := decide (value > 0)
    match code with
    | 304 => { con with button.a := setInput pressed }
    | 305 => { con with button.b := setInput pressed }
    | 307 => { con with button.y := setInput pressed }
    | 308 => { con with button.x := setInput pressed }
    | 310 => { con with button.l := setInput pressed }
    | 311 => { con with button.r := setInput pressed }
    | 312 => { con with button.zl := setInput pressed }
    | 313 => { con with button.zr := setInput pressed }
    | 314 => { con with button.minus := setInput pressed }
    | 315 => { con with button.plus := setInput pressed }
    | 316 => { con with button.home := setInput pressed }
    | 317 => { con with stick.left.press := (value % 256).toNat }
    | 318 => { con with stick.right.press := (value % 256).toNat }
    | _ => con
  | 3 =>
    let normalizedValue := normalize value
    match code with
    | 0 => { con with stick.left.x := normalizedValue }
    | 1 => { con with stick.left.y := -normalizedValue }
    | 3 => { con with stick.right.x := normalizedValue }
    | 4 => { con with stick.right.y := -normalizedValue }
    | 16 =>
      if value < 0 then { con with dpad.left := 1, dpad.right := 0 }
      else if value > 0 then { con with dpad.left := 0, dpad.right := 1 }
      else { con with dpad.left := 0, dpad.right := 0 }
    | 17 =>
      if value < 0 then { con with dpad.up := 1, dpad.down := 0 }
      else if value > 0 then { con with dpad.up := 0, dpad.down := 1 }
      else { con with dpad.up := 0, dpad.down := 0 }
    | _ => con
  | _ => con

end Multi

/-! ### Field-level view of the state, used to express frame conditions -/

/-- One scalar field of the canonical controller state. -/
inductive StateField
  | btnA | btnB | btnX | btnY | btnL | btnR | btnZL | btnZR
  | btnMinus | btnPlus | btnHome
  | leftX | leftY | leftPress | rightX | rightY | rightPress
  | dpadUp | dpadDown | dpadLeft | dpadRight
deriving DecidableEq, Fintype

/-- Read one scalar field of the state (digital values cast into `ℚ` so that
all fields live in one type). -/
def readField (s : ControllerInput) : StateField → ℚ
  | .btnA => s.button.a
  | .btnB => s.button.b
  | .btnX => s.button.x
  | .btnY => s.button.y
  | .btnL => s.button.l
  | .btnR => s.button.r
  | .btnZL => s.button.zl
  | .btnZR => s.button.zr
  | .btnMinus => s.button.minus
  | .btnPlus => s.button.plus
  | .btnHome => s.button.home
  | .leftX => s.stick.left.x
  | .leftY => s.stick.left.y
  | .leftPress => s.stick.left.press
  | .rightX => s.stick.right.x
  | .rightY => s.stick.right.y
  | .rightPress => s.stick.right.press
  | .dpadUp => s.dpad.up
  | .dpadDown => s.dpad.down
  | .dpadLeft => s.dpad.left
  | .dpadRight => s.dpad.right

/-- The field(s) the fixed evdev mapping assigns for a given (type, code)
pair: one field for buttons, stick presses and stick axes, the d-pad pair for
codes 16/17, nothing for unknown codes. -/
def mappedFields (eventType code : ℕ) : List StateField :=
  match eventType with
  | 1 =>
    match code with
    | 304 => [.btnA]
    | 305 => [.btnB]
    | 307 => [.btnY]
    | 308 => [.btnX]
    | 310 => [.btnL]
    | 311 => [.btnR]
    | 312 => [.btnZL]
    | 313 => [.btnZR]
    | 314 => [.btnMinus]
    | 315 => [.btnPlus]
    | 316 => [.btnHome]
    | 317 => [.leftPress]
    | 318 => [.rightPress]
    | _ => []
  | 3 =>
    match code with
    | 0 => [.leftX]
    | 1 => [.leftY]
    | 3 => [.rightX]
    | 4 => [.rightY]
    | 16 => [.dpadLeft, .dpadRight]
    | 17 => [.dpadUp, .dpadDown]
    | _ => []
  | _ => []

/-- A digital field is exactly 0 or 1. -/
def DigitalOk (n : ℕ) : Prop := n = 0 ∨ n = 1

/-- The state invariant that actually holds after every event: analog axes in
[-1, 1], buttons and d-pad directions exactly 0 or 1, and the stick-press
fields in the `uint8` range 0..255 (they receive the raw value truncated to a
byte, not a 0/1 level). -/
def StateInvariant (s : ControllerInput) : Prop :=
  (-1 ≤ s.stick.left.x ∧ s.stick.left.x ≤ 1) ∧
  (-1 ≤ s.stick.left.y ∧ s.stick.left.y ≤ 1) ∧
  (-1 ≤ s.stick.right.x ∧ s.stick.right.x ≤ 1) ∧
  (-1 ≤ s.stick.right.y ∧ s.stick.right.y ≤ 1) ∧
  DigitalOk s.button.a ∧ DigitalOk s.button.b ∧ DigitalOk s.button.x ∧
  DigitalOk s.button.y ∧ DigitalOk s.button.l ∧ DigitalOk s.button.r ∧
  DigitalOk s.button.zl ∧ DigitalOk s.button.zr ∧ DigitalOk s.button.minus ∧
  DigitalOk s.button.plus ∧ DigitalOk s.button.home ∧
  DigitalOk s.dpad.up ∧ DigitalOk s.dpad.down ∧ DigitalOk s.dpad.left ∧
  DigitalOk s.dpad.right ∧
  s.stick.left.press < 256 ∧ s.stick.right.press < 256

/-- C4 (counterexample): the claim that all digital fields are exactly 0 or 1
after every event, including stick-press events with arbitrary int32 values,
is false: the stick-press event (type 1, code 317, value 2) stores the byte
truncation 2 in the left stick-press field. -/
theorem stickPress_counterexample :
    ¬ ((Multi.handleInputEvent 1 317 2 initInput).stick.left.press = 0 ∨
       (Multi.handleInputEvent 1 317 2 initInput).stick.left.press = 1) := by
  decide

set_option maxHeartbeats 1000000 in
/-- C4 (amended): after every event applied to a state satisfying the
invariant, all analog fields lie in [-1, 1] and all digital fields except the
stick presses are exactly 0 or 1; the stick-press fields hold the low byte of
the raw value and hence lie in 0..255. -/
theorem handleInputEvent_invariant (t c : ℕ) (v : ℤ) (s : ControllerInput)
    (h : StateInvariant s) :
    StateInvariant (Multi.handleInputEvent t c v s) := by
  have hn1 := normalize_bounds v
  have hn2 : -1 ≤ -(Multi.normalize v) ∧ -(Multi.normalize v) ≤ 1 := by
    constructor <;> linarith [hn1.1, hn1.2]
  have hp : ((v % 256).toNat : ℕ) < 256 := by omega
  unfold StateInvariant DigitalOk at h ⊢
  unfold Multi.handleInputEvent
  split <;> (try split) <;> (try split_ifs) <;>
    simp_all [Multi.setInput] <;> omega

/-- C4 (witness): the invariant theorem applied at the concrete event
(type 3, code 0, value 200) from the all-zero state. -/
theorem invariant_witness :
    StateInvariant (Multi.handleInputEvent 3 0 200 initInput) := by
  refine handleInputEvent_invariant 3 0 200 initInput ?_
  unfold StateInvariant DigitalOk initInput
  norm_num

/-- C5 (counterexample): the claim that every event with a known code mutates
exactly one field and leaves every other field unchanged is false: the d-pad
horizontal event (type 3, code 16, value -1) applied to a state with
`dpad.right = 1` changes both `dpad.left` (0 to 1) and `dpad.right` (1 to 0),
so no single field accounts for all changes. -/
theorem dpad_counterexample :
    ¬ ∃ f : StateField, ∀ g : StateField, g ≠ f →
      readField (Multi.handleInputEvent 3 16 (-1) { dpad := { right := 1 } }) g
        = readField { dpad := { right := 1 } } g := by
  rintro ⟨f, hf⟩
  by_cases h : f = StateField.dpadLeft
  · have h2 := hf StateField.dpadRight (by simp [h])
    simp [Multi.handleInputEvent, readField] at h2
  · have h2 := hf StateField.dpadLeft (fun he => h he.symm)
    simp [Multi.handleInputEvent, readField] at h2

set_option maxHeartbeats 1000000 in
/-- C5 (amended): applying an event changes at most the fields the fixed
evdev mapping assigns to its (type, code) pair — a single field for button,
stick-press and stick-axis codes, the horizontal or vertical d-pad pair for
codes 16/17 — and an event whose code is not in the mapping (equivalently,
whose mapped field list is empty) leaves the state entirely unchanged. -/
theorem handleInputEvent_frame (t c : ℕ) (v : ℤ) (s : ControllerInput) :
    (∀ f : StateField, f ∉ mappedFields t c →
      readField (Multi.handleInputEvent t c v s) f = readField s f) ∧
    (mappedFields t c = [] → Multi.handleInputEvent t c v s = s) := by
  constructor
  · intro f hf
    unfold Multi.handleInputEvent mappedFields at *
    split at hf <;> (try split at hf) <;>
      (try split_ifs) <;> cases f <;> simp_all [readField]
  · intro h
    unfold Multi.handleInputEvent mappedFields at *
    split at h <;> (try split at h) <;> (try split_ifs) <;> simp_all

/-- C5 (witness): the frame theorem applied at the concrete event
(type 1, code 304, value 1): the B button is untouched by an A-button press. -/
theorem frame_witness :
    readField initInput StateField.btnB =
      readField (Multi.handleInputEvent 1 304 1 initInput) StateField.btnB := by
  exact ((handleInputEvent_frame 1 304 1 initInput).1 StateField.btnB
    (by simp [mappedFields])).symm

/-! ## Spec-side normalization formulas, for comparison with the code -/

/-- Spec-side deadzone: any result of magnitude strictly below 0.05 snaps to
exactly 0. -/
def specSnap (x : ℚ) : ℚ := if |x| < 0.05 then 0 else x

/-- Spec-side clamp of a value to [-1, 1]. -/
def specClamp (x : ℚ) : ℚ := max (-1) (min 1 x)

theorem deadzone_clampUnit_eq_spec (x : ℚ) :
    deadzone (clampUnit x) = specSnap (specClamp x) := by
  rw [clampUnit_eq_max_min, deadzone_eq_abs]
  rfl

/-- C2: for every raw value v in 0..255 both normalizers return
(v - 127.5) / 127.5 clamped to [-1, 1] with magnitudes below 0.05 snapped to
0, and for every v in -32768..32767 outside 0..255 they return v / 32767
clamped and deadzone-applied identically. -/
theorem normalize_8bit_16bit (v : ℤ) :
    (0 ≤ v → v ≤ 255 →
      Multi.normalize v = specSnap (specClamp (((v : ℚ) - 127.5) / 127.5)) ∧
      Part0.normalize v = specSnap (specClamp (((v : ℚ) - 127.5) / 127.5))) ∧
    (-32768 ≤ v → v ≤ 32767 → ¬ (0 ≤ v ∧ v ≤ 255) →
      Multi.normalize v = specSnap (specClamp ((v : ℚ) / 32767)) ∧
      Part0.normalize v = specSnap (specClamp ((v : ℚ) / 32767))) := by
  constructor
  · intro h0 h255
    have e1 : Multi.normalizeRaw v = ((v : ℚ) - 127.5) / 127.5 := by
      unfold Multi.normalizeRaw; rw [if_pos ⟨h0, h255⟩]
    have e2 : Part0.normalizeRaw v = ((v : ℚ) - 127.5) / 127.5 := by
      unfold Part0.normalizeRaw; rw [if_pos ⟨h0, h255⟩]
    constructor
    · unfold Multi.normalize; rw [e1, deadzone_clampUnit_eq_spec]
    · unfold Part0.normalize; rw [e2, deadzone_clampUnit_eq_spec]
  · intro ha hb hc
    have e1 : Multi.normalizeRaw v = (v : ℚ) / 32767 := by
      unfold Multi.normalizeRaw; rw [if_neg hc, if_pos ⟨ha, hb⟩]
    have e2 : Part0.normalizeRaw v = (v : ℚ) / 32767 := by
      unfold Part0.normalizeRaw; rw [if_neg hc, if_pos ⟨ha, hb⟩]
    constructor
    · unfold Multi.normalize; rw [e1, deadzone_clampUnit_eq_spec]
    · unfold Part0.normalize; rw [e2, deadzone_clampUnit_eq_spec]

/-- C2 (witness): value 200 normalizes under the 8-bit rule to
(200 - 127.5) / 127.5 = 29/51, and value 1000 normalizes under the 16-bit
rule to 1000/32767, which the deadzone snaps to 0. -/
theorem normalize_8bit_16bit_witness :
    Multi.normalize 200 = 29 / 51 ∧ Multi.normalize 1000 = 0 := by
  constructor
  · have h := ((normalize_8bit_16bit 200).1 (by norm_num) (by norm_num)).1
    rw [h]
    norm_num [specSnap, specClamp, min_def, max_def, abs]
  · have h := ((normalize_8bit_16bit 1000).2 (by norm_num) (by norm_num)
      (by norm_num)).1
    rw [h]
    norm_num [specSnap, specClamp, min_def, max_def, abs]

/-- C3: a raw value lying in two or more candidate ranges is normalized under
the rule of the earliest containing range in the precedence order 8-bit,
16-bit, 12-bit, 10-bit (every multi-range value is already in the 8-bit or
the 16-bit range, so those two rules decide every overlap), and a value
outside all four ranges falls back to the 8-bit rule. -/
theorem precedence (v : ℤ) :
    (inR8 v → (inR16 v ∨ inR12 v ∨ inR10 v) →
      Part0.normalize v = specSnap (specClamp (((v : ℚ) - 127.5) / 127.5))) ∧
    (¬ inR8 v → inR16 v → (inR12 v ∨ inR10 v) →
      Part0.normalize v = specSnap (specClamp ((v : ℚ) / 32767))) ∧
    (¬ inR8 v → ¬ inR16 v → ¬ inR12 v → ¬ inR10 v →
      Part0.normalize v = specSnap (specClamp (((v : ℚ) - 127.5) / 127.5))) := by
  unfold inR8 inR16 inR12 inR10
  refine ⟨fun h8 _ => ?_, fun h8 h16 _ => ?_, fun h8 h16 h12 h10 => ?_⟩
  · have e : Part0.normalizeRaw v = ((v : ℚ) - 127.5) / 127.5 := by
      unfold Part0.normalizeRaw; rw [if_pos h8]
    unfold Part0.normalize; rw [e, deadzone_clampUnit_eq_spec]
  · have e : Part0.normalizeRaw v = (v : ℚ) / 32767 := by
      unfold Part0.normalizeRaw; rw [if_neg h8, if_pos h16]
    unfold Part0.normalize; rw [e, deadzone_clampUnit_eq_spec]
  · have e : Part0.normalizeRaw v = ((v : ℚ) - 127.5) / 127.5 := by
      unfold Part0.normalizeRaw
      rw [if_neg h8, if_neg h16, if_neg h12, if_neg h10]
    unfold Part0.normalize; rw [e, deadzone_clampUnit_eq_spec]

/-- C3 (witness): 200 lies in all four ranges and gets the 8-bit rule
(29/51, not the 12-bit or 10-bit result); 1000 lies in the 16-bit, 12-bit and
10-bit ranges and gets the 16-bit rule (snapped to 0, not the 12-bit result
-0.512); 40000 lies outside all four ranges and gets the clamped 8-bit
fallback 1. -/
theorem precedence_witness :
    Part0.normalize 200 = 29 / 51 ∧ Part0.normalize 1000 = 0 ∧
      Part0.normalize 40000 = 1 := by
  refine ⟨?_, ?_, ?_⟩
  · have h := (precedence 200).1 (by unfold inR8; omega)
      (Or.inl (by unfold inR16; omega))
    rw [h]; norm_num [specSnap, specClamp, min_def, max_def, abs]
  · have h := (precedence 1000).2.1 (by unfold inR8; omega)
      (by unfold inR16; omega) (Or.inl (by unfold inR12; omega))
    rw [h]; norm_num [specSnap, specClamp, min_def, max_def, abs]
  · have h := (precedence 40000).2.2 (by unfold inR8; omega)
      (by unfold inR16; omega) (by unfold inR12; omega) (by unfold inR10; omega)
    rw [h]; norm_num [specSnap, specClamp, min_def, max_def, abs]

/-- C10: the three-branch range-inference chain of `multi_controller.go` and
the five-branch chain of the unnamed bluetooth demo source are extensionally
equal on every integer raw value: the 12-bit and 10-bit branches are
unreachable because every value they would accept is already caught by the
8-bit or 16-bit branch. -/
theorem three_branch_eq_five_branch (v : ℤ) :
    Multi.normalize v = Part0.normalize v := by
  unfold Multi.normalize Part0.normalize Multi.normalizeRaw Part0.normalizeRaw
  split_ifs <;> first | rfl | omega

/-! ## Event decoder (the 24-byte `input_event` parsing shared by
`readControllerInput` in `multi_controller.go` and `readInputEvents` in the
unnamed bluetooth demo source) -/

theorem lor_shiftLeft_eq_add {k x y : ℕ} (h : x < 2 ^ k) :
    x ||| (y <<< k) = x + y * 2 ^ k := by
  apply Nat.eq_of_testBit_eq
  intro j
  have hrw : x + y * 2 ^ k = 2 ^ k * y + x := by ring
  rw [Nat.testBit_or, Nat.testBit_shiftLeft, hrw,
    Nat.testBit_mul_pow_two_add y h j]
  rcases Nat.lt_or_ge j k with hj | hj
  · simp [hj, Nat.not_le.mpr hj]
  · have hx : Nat.testBit x j = false :=
      Nat.testBit_lt_two_pow
        (lt_of_lt_of_le h (Nat.pow_le_pow_right (by norm_num) hj))
    simp [hx, hj, Nat.not_lt.mpr hj]

theorem lor_byte1 {x y : ℕ} (h : x < 256) : x ||| (y <<< 8) = x + 256 * y := by
  have h8 : x < 2 ^ 8 := by norm_num; exact h
  simpa [Nat.mul_comm] using lor_shiftLeft_eq_add h8

theorem lor_byte2 {x y : ℕ} (h : x < 65536) :
    x ||| (y <<< 16) = x + 65536 * y := by
  have h16 : x < 2 ^ 16 := by norm_num; exact h
  simpa [Nat.mul_comm] using lor_shiftLeft_eq_add h16

theorem lor_byte3 {x y : ℕ} (h : x < 16777216) :
    x ||| (y <<< 24) = x + 16777216 * y := by
  have h24 : x < 2 ^ 24 := by norm_num; exact h
  simpa [Nat.mul_comm] using lor_shiftLeft_eq_add h24

/-- Reinterpretation of a 32-bit unsigned bit pattern as a Go `int32`
(two's complement). -/
def toInt32 (n : ℕ) : ℤ :=
  if n % 4294967296 < 2147483648 then ((n % 4294967296 : ℕ) : ℤ)
  else ((n % 4294967296 : ℕ) : ℤ) - 4294967296

/-- The `input_event` parsing: `type` and `code` are the 2-byte little-endian
unsigned fields at offsets 16 and 18, `value` is the 4-byte little-endian
signed field at offset 20, built with the same or-of-shifted-bytes
expressions as the Go source; the first 16 timestamp bytes are ignored. -/
def parseEvent (buffer : Fin 24 → Fin 256) : ℕ × ℕ × ℤ :=
  let eventType := (buffer 16).val ||| ((buffer 17).val <<< 8)
  let code := (buffer 18).val ||| ((buffer 19).val <<< 8)
  let value := toInt32 ((buffer 20).val ||| ((buffer 21).val <<< 8) |||
    ((buffer 22).val <<< 16) ||| ((buffer 23).val <<< 24))
  (eventType, code, value)

theorem parseEvent_eq (b : Fin 24 → Fin 256) :
    parseEvent b =
      ((b 16).val + 256 * (b 17).val,
       (b 18).val + 256 * (b 19).val,
       if (b 20).val + 256 * (b 21).val + 65536 * (b 22).val +
            16777216 * (b 23).val < 2147483648
       then ((b 20).val + 256 * (b 21).val + 65536 * (b 22).val +
            16777216 * (b 23).val : ℤ)
       else ((b 20).val + 256 * (b 21).val + 65536 * (b 22).val +
            16777216 * (b 23).val : ℤ) - 4294967296) := by
  have h20 := (b 20).isLt
  have h21 := (b 21).isLt
  have h22 := (b 22).isLt
  have h23 := (b 23).isLt
  unfold parseEvent toInt32
  rw [lor_byte1 (b 16).isLt, lor_byte1 (b 18).isLt, lor_byte1 (b 20).isLt,
    lor_byte2 (by omega), lor_byte3 (by omega)]
  have hu : (b 20).val + 256 * (b 21).val + 65536 * (b 22).val +
      16777216 * (b 23).val < 4294967296 := by omega
  rw [Nat.mod_eq_of_lt hu]
  push_cast
  split_ifs <;> simp

/-! ## Session manager (the `ControllerManager` of `multi_controller.go`);
Go maps are association lists, the external nscon handle outcomes are
boolean parameters -/

/-- The `add` error taxonomy observable in `AddController`. -/
inductive AddError
  | rangeError
  | duplicateError
  | connectError
deriving DecidableEq

/-- The external nscon protocol handle, as visible from this repository:
its construction target, the log level set by the manager, and whether
`Close` has been called on it. -/
structure Controller where
  target : String
  logLevel : ℤ := 0
  closed : Bool := false
deriving DecidableEq

/-- `nscon.NewController`: a fresh, not yet closed handle. -/
def NewController (target : String) : Controller :=
  { target := target }

/-- Lookup in a Go map modelled as an association list. -/
def mapLookup {α : Type} (l : List (ℤ × α)) (k : ℤ) : Option α :=
  match l with
  | [] => none
  | (k₁, v) :: rest => if k = k₁ then some v else mapLookup rest k

/-- Assignment `m[k] = v` in a Go map modelled as an association list. -/
def mapInsert {α : Type} (l : List (ℤ × α)) (k : ℤ) (v : α) : List (ℤ × α) :=
  match l with
  | [] => [(k, v)]
  | (k₁, v₁) :: rest =>
    if k = k₁ then (k, v) :: rest else (k₁, v₁) :: mapInsert rest k v

/-- Number of entries carrying key `k` (for stating registry uniqueness). -/
def countKey {α : Type} (l : List (ℤ × α)) (k : ℤ) : ℕ :=
  match l with
  | [] => 0
  | (k₁, _) :: rest => (if k = k₁ then 1 else 0) + countKey rest k

namespace Multi

/-- The `ControllerManager` registry state. -/
structure ControllerManager where
  controllers : List (ℤ × Controller) := []
  devices : List (ℤ × String) := []
  logLevel : ℤ := 1
deriving DecidableEq

/-- `NewControllerManager`: empty registry. -/
def NewControllerManager (logLevel : ℤ) : ControllerManager :=
  { logLevel := logLevel }

/-- `AddController`: range check, duplicate check, construct the handle and
connect (outcome `connectOk`), then register the controller and the device
path. Returns the Go error (if any) together with the resulting state. -/
def AddController (cm : ControllerManager) (playerNum : ℤ)
    (hidgDevice inputDevice : String) (connectOk : Bool) :
    Option AddError × ControllerManager :=
  if playerNum < 1 ∨ playerNum > 8 then (some .rangeError, cm)
  else if (mapLookup cm.controllers playerNum).isSome then
    (some .duplicateError, cm)
  else
    let controller : Controller :=
      { NewController hidgDevice with logLevel := cm.logLevel }
    if connectOk then
      (none,
       { cm with
          controllers := mapInsert cm.controllers playerNum controller,
          devices := mapInsert cm.devices playerNum inputDevice })
    else (some .connectError, cm)

/-- Startup of the `readControllerInput` goroutine: `os.Open` of the input
device with outcome `openOk`; on failure the goroutine logs and returns
without touching the registry or the protocol handle (second component:
whether the reader is running afterwards). -/
def readControllerOpen (cm : ControllerManager) (openOk : Bool) :
    ControllerManager × Bool :=
  if openOk then (cm, true) else (cm, false)

/-- An `AddController` call together with the startup of the reader
goroutine it spawns. -/
def addControllerAndOpen (cm : ControllerManager) (playerNum : ℤ)
    (hidgDevice inputDevice : String) (connectOk openOk : Bool) :
    Option AddError × ControllerManager × Bool :=
  match AddController cm playerNum hidgDevice inputDevice connectOk with
  | (some e, cm₁) => (some e, cm₁, false)
  | (none, cm₁) =>
    let r := readControllerOpen cm₁ openOk
    (none, r.1, r.2)

/-- The registry membership check polled by each reader loop. -/
def controllerExists (cm : ControllerManager) (playerNum : ℤ) : Bool :=
  (mapLookup cm.controllers playerNum).isSome

/-- The `Close` method: calls `Close` on every registered handle (returned
as the list of closed slots) and resets both maps to fresh empty maps. -/
def Close (cm : ControllerManager) : ControllerManager × List ℤ :=
  ({ cm with controllers := [], devices := [] },
   cm.controllers.map (fun q => q.1))

/-- One iteration of the `readControllerInput` loop: poll registry
membership (stop when removed), then read (`none` models a read error:
sleep and continue), drop short reads, otherwise decode and apply the event.
Second component: whether the loop keeps running. -/
def readLoopStep (cm : ControllerManager) (playerNum : ℤ)
    (readRes : Option (ℕ × (Fin 24 → Fin 256))) (s : ControllerInput) :
    ControllerInput × Bool :=
  if controllerExists cm playerNum then
    match readRes with
    | none => (s, true)
    | some (n, buffer) =>
      if n ≠ 24 then (s, true)
      else
        let e := parseEvent buffer
        (handleInputEvent e.1 e.2.1 e.2.2 s, true)
  else (s, false)

end Multi

/-! ### Association-list lemmas -/

theorem mapLookup_none_countKey {α : Type} (l : List (ℤ × α)) (k : ℤ)
    (h : mapLookup l k = none) : countKey l k = 0 := by
  induction l with
  | nil => rfl
  | cons p rest ih =>
    obtain ⟨k₁, v⟩ := p
    unfold mapLookup at h
    unfold countKey
    by_cases hk : k = k₁
    · rw [if_pos hk] at h; exact absurd h (by simp)
    · rw [if_neg hk] at h
      rw [if_neg hk, ih h]

theorem countKey_mapInsert_of_none {α : Type} (l : List (ℤ × α)) (k : ℤ)
    (v : α) (h : mapLookup l k = none) : countKey (mapInsert l k v) k = 1 := by
  induction l with
  | nil => simp [mapInsert, countKey]
  | cons p rest ih =>
    obtain ⟨k₁, v₁⟩ := p
    unfold mapLookup at h
    by_cases hk : k = k₁
    · rw [if_pos hk] at h; exact absurd h (by simp)
    · rw [if_neg hk] at h
      unfold mapInsert
      rw [if_neg hk]
      unfold countKey
      rw [if_neg hk, ih h]

theorem mapLookup_mapInsert_self {α : Type} (l : List (ℤ × α)) (k : ℤ)
    (v : α) : mapLookup (mapInsert l k v) k = some v := by
  induction l with
  | nil => simp [mapInsert, mapLookup]
  | cons p rest ih =>
    obtain ⟨k₁, v₁⟩ := p
    unfold mapInsert
    by_cases hk : k = k₁
    · rw [if_pos hk]; unfold mapLookup; rw [if_pos rfl]
    · rw [if_neg hk]; unfold mapLookup; rw [if_neg hk]; exact ih

/-- C1 (counterexample): the claim that a failing input-source open aborts
creation, closes the protocol handle and leaves the registry unchanged is
false: adding slot 1 to an empty registry with a successful connect but a
failing source open returns no error, leaves the reader stopped, and leaves
the session registered with its handle not closed. -/
theorem add_openFail_counterexample :
    (Multi.addControllerAndOpen (Multi.NewControllerManager 1) 1
        ("/dev/hidg0") ("/nope") true false).1 = none ∧
    (Multi.addControllerAndOpen (Multi.NewControllerManager 1) 1
        ("/dev/hidg0") ("/nope") true false).2.2 = false ∧
    mapLookup (Multi.addControllerAndOpen (Multi.NewControllerManager 1) 1
        ("/dev/hidg0") ("/nope") true false).2.1.controllers 1 =
      some { target := "/dev/hidg0", logLevel := 1, closed := false } := by
  refine ⟨rfl, rfl, rfl⟩

/-- C1 (amended): every failing `add` call (RangeError, DuplicateError or
ConnectError, the only errors the code can return) leaves the registry
unchanged; a failure to open the input source does not fail the `add` call:
the reader goroutine stops, but the session stays registered and its
protocol handle is never closed. -/
theorem add_failure_frame (cm : Multi.ControllerManager) (p : ℤ)
    (hd i : String) (cOk : Bool) :
    (∀ e, (Multi.AddController cm p hd i cOk).1 = some e →
      (Multi.AddController cm p hd i cOk).2 = cm) ∧
    (∀ oOk, (Multi.AddController cm p hd i cOk).1 = none →
      (Multi.addControllerAndOpen cm p hd i cOk oOk).2.2 = oOk ∧
      ∃ c, mapLookup
          (Multi.addControllerAndOpen cm p hd i cOk oOk).2.1.controllers p =
          some c ∧ c.closed = false) := by
  constructor
  · intro e he
    unfold Multi.AddController at he ⊢
    split_ifs at he ⊢ <;> simp_all
  · intro oOk hn
    have hx : Multi.AddController cm p hd i cOk =
        (none, (Multi.AddController cm p hd i cOk).2) := by
      rw [← hn]
    unfold Multi.addControllerAndOpen Multi.readControllerOpen
    rw [hx]
    refine ⟨by cases oOk <;> rfl, ?_⟩
    unfold Multi.AddController at hn ⊢
    split_ifs at hn ⊢ <;> simp_all <;>
      exact ⟨_, mapLookup_mapInsert_self cm.controllers p _, rfl⟩

/-- C1 (witness): the amended theorem applied concretely: a RangeError add
(slot 9) leaves the registry unchanged, and an open failure for slot 1
leaves the session registered with an unclosed handle. -/
theorem add_failure_frame_witness :
    (Multi.AddController (Multi.NewControllerManager 1) 9 ("h0") ("i0")
        true).2 = Multi.NewControllerManager 1 ∧
    ∃ c, mapLookup (Multi.addControllerAndOpen (Multi.NewControllerManager 1)
        1 ("h0") ("i0") true false).2.1.controllers 1 =
      some c ∧ c.closed = false := by
  constructor
  · exact (add_failure_frame (Multi.NewControllerManager 1) 9 ("h0") ("i0")
      true).1 AddError.rangeError rfl
  · exact ((add_failure_frame (Multi.NewControllerManager 1) 1 ("h0") ("i0")
      true).2 false rfl).2

/-- C6: `add` with a slot below 1 or above 8 fails with RangeError and
leaves the state unchanged; after a successful `add` of a slot, a second
`add` of the same slot fails with DuplicateError, leaves the state
unchanged, and the registry holds exactly one entry for that slot. -/
theorem add_range_duplicate (cm : Multi.ControllerManager) (p : ℤ)
    (hd i : String) (cOk : Bool) :
    ((p < 1 ∨ p > 8) →
      Multi.AddController cm p hd i cOk = (some .rangeError, cm)) ∧
    (∀ cm₁ hd₂ i₂ cOk₂, Multi.AddController cm p hd i cOk = (none, cm₁) →
      Multi.AddController cm₁ p hd₂ i₂ cOk₂ = (some .duplicateError, cm₁) ∧
      countKey cm₁.controllers p = 1) := by
  constructor
  · intro hp
    unfold Multi.AddController
    rw [if_pos hp]
  · intro cm₁ hd₂ i₂ cOk₂ hadd
    unfold Multi.AddController at hadd
    split_ifs at hadd with h1 h2 h3 <;> simp_all
    obtain ⟨rfl⟩ := hadd
    have hnone : mapLookup cm.controllers p = none := by
      cases hml : mapLookup cm.controllers p <;> simp_all
    constructor
    · unfold Multi.AddController
      rw [if_neg (show ¬(p < 1 ∨ p > 8) by omega)]
      simp [mapLookup_mapInsert_self]
    · exact countKey_mapInsert_of_none cm.controllers p _ hnone

/-- C6 (witness): slot 0 is rejected with RangeError; adding slot 1 twice
(second call with fresh paths) yields DuplicateError and a registry with
exactly one entry for slot 1. -/
theorem add_range_duplicate_witness :
    Multi.AddController (Multi.NewControllerManager 1) 0 ("h0") ("i0") true =
      (some AddError.rangeError, Multi.NewControllerManager 1) ∧
    (Multi.AddController
        (Multi.AddController (Multi.NewControllerManager 1) 1 ("h0") ("i0")
          true).2 1 ("h1") ("i1") true).1 = some AddError.duplicateError ∧
    countKey (Multi.AddController (Multi.NewControllerManager 1) 1 ("h0")
        ("i0") true).2.controllers 1 = 1 := by
  have h1 := (add_range_duplicate (Multi.NewControllerManager 1) 0 ("h0")
    ("i0") true).1 (Or.inl (by norm_num))
  have h2 := (add_range_duplicate (Multi.NewControllerManager 1) 1 ("h0")
    ("i0") true).2
    (Multi.AddController (Multi.NewControllerManager 1) 1 ("h0") ("i0")
      true).2 ("h1") ("i1") true (by rfl)
  exact ⟨h1, by rw [h2.1], h2.2⟩

/-- C8: the decoder reads type and code as 2-byte little-endian unsigned
integers at offsets 16 and 18 and the value as a 4-byte little-endian two's
complement signed integer at offset 20, ignoring the 16 timestamp bytes; and
a read whose byte count differs from 24 leaves the state unchanged and keeps
the loop running. -/
theorem decode_and_drop :
    (∀ b : Fin 24 → Fin 256,
      parseEvent b =
        ((b 16).val + 256 * (b 17).val,
         (b 18).val + 256 * (b 19).val,
         if (b 20).val + 256 * (b 21).val + 65536 * (b 22).val +
              16777216 * (b 23).val < 2147483648
         then ((b 20).val + 256 * (b 21).val + 65536 * (b 22).val +
              16777216 * (b 23).val : ℤ)
         else ((b 20).val + 256 * (b 21).val + 65536 * (b 22).val +
              16777216 * (b 23).val : ℤ) - 4294967296)) ∧
    (∀ cm p n buffer s, Multi.controllerExists cm p = true → n ≠ 24 →
      Multi.readLoopStep cm p (some (n, buffer)) s = (s, true)) := by
  constructor
  · exact parseEvent_eq
  · intro cm p n buffer s he hn
    unfold Multi.readLoopStep
    rw [he]
    simp [hn]

/-- C8 (witness): a 23-byte read against a registry containing slot 1 is
dropped: the state is unchanged and the loop keeps running. -/
theorem decode_and_drop_witness :
    Multi.readLoopStep { controllers := [(1, { target := "" })] } 1
      (some (23, fun _ => 0)) initInput = (initInput, true) := by
  exact decode_and_drop.2 _ 1 23 _ initInput rfl (by omega)

/-- C9: `Close` calls `Close` on every registered session (the closed-slot
list is exactly the registered slots), empties the registry so every reader
loop observes the removal and stops, and is idempotent: a second call
succeeds, closes nothing, and leaves the same empty state. -/
theorem closeAll_spec (cm : Multi.ControllerManager) :
    (Multi.Close cm).1.controllers = [] ∧ (Multi.Close cm).1.devices = [] ∧
    (Multi.Close cm).2 = cm.controllers.map (fun q => q.1) ∧
    (∀ p rd s, Multi.readLoopStep (Multi.Close cm).1 p rd s = (s, false)) ∧
    Multi.Close (Multi.Close cm).1 = ((Multi.Close cm).1, []) := by
  refine ⟨rfl, rfl, rfl, ?_, rfl⟩
  intro p rd s
  simp [Multi.readLoopStep, Multi.controllerExists, mapLookup, Multi.Close]

/-! ## Pulse mode (`setInput` of `no_held_buttons.go`): the field is set to 1
and a fire-and-forget `time.AfterFunc` timer resets it to 0 after 100ms.
Timers are modelled as pending reset deadlines; advancing the clock fires
every due callback. -/

namespace NoHeld

/-- A pulsed digital field: current value plus the reset deadlines of the
scheduled `time.AfterFunc` callbacks. -/
structure PulsedField where
  value : ℕ := 0
  pending : List ℕ := []
deriving DecidableEq

/-- The `setInput` of `no_held_buttons.go`: set the field to 1 now and
schedule a reset callback for 100ms later; scheduling returns immediately
(the deadline is only queued), so the read loop is not blocked. -/
def setInput (now : ℕ) (f : PulsedField) : PulsedField :=
  { value := 1, pending := f.pending ++ [now + 100] }

/-- Timer runtime: advancing the clock to time `t` fires every due callback,
each setting the field to 0 and leaving the queue without its deadline. -/
def fireDue (t : ℕ) (f : PulsedField) : PulsedField :=
  { value := if f.pending.any (fun d => decide (d ≤ t)) then 0 else f.value,
    pending := f.pending.filter (fun d => decide (¬ d ≤ t)) }

/-- Pulse-mode key handling in `no_held_buttons.go`: only presses
(`value > 0`) call `setInput`; releases leave the field alone. -/
def handleKeyPulse (now : ℕ) (value : ℤ) (f : PulsedField) : PulsedField :=
  if value > 0 then setInput now f else f

end NoHeld

/-- C7: in pulse mode a press sets the digital field to 1 and schedules an
independent reset deadline without blocking (the press returns with the
deadline merely queued); a physical release is a no-op on the field; and
with no further external mutation the field is observed at exactly 0 at any
time at least 100ms after the press. -/
theorem pulse_resets_after_100ms (f : NoHeld.PulsedField) (t0 t1 t : ℕ)
    (rv : ℤ) (hrv : rv ≤ 0) (ht : t0 + 100 ≤ t) :
    (NoHeld.setInput t0 f).value = 1 ∧
    (NoHeld.setInput t0 f).pending = f.pending ++ [t0 + 100] ∧
    NoHeld.handleKeyPulse t1 rv (NoHeld.setInput t0 f) =
      NoHeld.setInput t0 f ∧
    (NoHeld.fireDue t
      (NoHeld.handleKeyPulse t1 rv (NoHeld.setInput t0 f))).value = 0 := by
  refine ⟨rfl, rfl, ?_, ?_⟩
  · unfold NoHeld.handleKeyPulse
    rw [if_neg (by omega)]
  · unfold NoHeld.handleKeyPulse
    rw [if_neg (by omega)]
    unfold NoHeld.fireDue NoHeld.setInput
    simp [List.any_append, ht]

/-- C7 (witness): a press at time 0, a release event at time 50, and an
observation at time 100 showing the field back at 0. -/
theorem pulse_resets_witness :
    (NoHeld.fireDue 100 (NoHeld.handleKeyPulse 50 0
      (NoHeld.setInput 0 ⟨0, []⟩))).value = 0 := by
  exact (pulse_resets_after_100ms ⟨0, []⟩ 0 50 100 0 (by omega)
    (by omega)).2.2.2
